import Mathlib

/-!
Shallow embedding of the NVD ETL connector (src/extract.py, src/transform.py).

JSON-like values are modelled by `JValue`; Python dicts are association lists
with string keys, Python `None` is `JValue.null`.  Operations that can raise a
Python exception (`KeyError`, `TypeError`, `AttributeError`, unhashable set
members, ...) return `Except Unit α`; the per-record `try/except` of the
transform loop catches the `.error` case.  `datetime.utcnow().isoformat()` is
modelled by an abstract timestamp string supplied per record.
-/

set_option maxHeartbeats 1000000

namespace NvdEtl

/-- A JSON value as produced by `response.json()` / stored in MongoDB.
Numbers are modelled abstractly by `Int` (the transform only copies them). -/
inductive JValue where
  | null
  | bool (b : Bool)
  | num (n : Int)
  | str (s : String)
  | arr (xs : List JValue)
  | obj (fields : List (String × JValue))


namespace JValue

/-- Python truthiness (`if data:`): `None`, `False`, `0`, `""`, `[]`, `{}` are falsy. -/
def pyTruthy : JValue → Bool
  | .null => false
  | .bool b => b
  | .num n => n != 0
  | .str s => s != ""
  | .arr xs => !xs.isEmpty
  | .obj fs => !fs.isEmpty

/-- Python `v[k]` with a string key: a `KeyError` on a dict without the key and a
`TypeError` on any non-dict become `.error ()`. -/
def pyIndex (v : JValue) (k : String) : Except Unit JValue :=
  match v with
  | .obj fs =>
    match fs.lookup k with
    | some x => .ok x
    | none => .error ()
  | _ => .error ()

/-- Python `v.get(k)`: `None` when the key is absent; `AttributeError` on non-dicts. -/
def jGet (v : JValue) (k : String) : Except Unit JValue :=
  match v with
  | .obj fs => .ok ((fs.lookup k).getD .null)
  | _ => .error ()

/-- Python `v.get(k, dflt)`. -/
def jGetD (v : JValue) (k : String) (dflt : JValue) : Except Unit JValue :=
  match v with
  | .obj fs => .ok ((fs.lookup k).getD dflt)
  | _ => .error ()

/-- Python `for x in v`: lists yield their elements, strings yield their one-character
substrings, dicts yield their keys; iterating any other value raises `TypeError`. -/
def jIter (v : JValue) : Except Unit (List JValue) :=
  match v with
  | .arr xs => .ok xs
  | .str s => .ok (s.toList.map (fun c => .str c.toString))
  | .obj fs => .ok (fs.map (fun p => .str p.1))
  | _ => .error ()

/-- Python set members must be hashable: dicts and lists raise `TypeError`. -/
def hashable : JValue → Bool
  | .arr _ => false
  | .obj _ => false
  | _ => true

end JValue

open JValue

/-- Field access `fs.get(k)` on a value already known to be a dict:
the stored value, or `None` when the key is absent. -/
def objGet (fs : List (String × JValue)) (k : String) : JValue :=
  (fs.lookup k).getD .null

/-- Python `v == "en"` (line 79 / 113): true exactly on the string `"en"`;
`==` against a string is `False` for every non-string value. -/
def isEn : JValue → Bool
  | .str s => s == "en"
  | _ => false

/-- Python `==` on the hashable (scalar) values that can reach the reference-url
set: `None`, booleans, numbers, strings.  Python's cross-type numeric equality
(`True == 1`) is not modelled; it cannot arise between url values of like kind
and no property here depends on it. -/
def primEq : JValue → JValue → Bool
  | .null, .null => true
  | .bool a, .bool b => a == b
  | .num a, .num b => a == b
  | .str a, .str b => a == b
  | _, _ => false

/-- Lines 78-80 / 113 of src/transform.py, the generator body of
`next((d.get("value") for d in descs if d.get("lang") == "en"), "")`:
walk the entries in order, return the first English entry's `value`
(`None` when it has no `value` key), or `""` when no entry is English.
Evaluation is lazy, so entries after the first English match are never
inspected; a malformed entry before it raises. -/
def firstEnglishValue : List JValue → Except Unit JValue
  | [] => .ok (.str "")
  | d :: ds =>
    match jGet d "lang" with
    | .error e => .error e
    | .ok lang => if isEn lang then jGet d "value" else firstEnglishValue ds

/-- The iterable `cve.get("descriptions", [])` as a list of entries (line 79). -/
def descsOf (cve : JValue) : Except Unit (List JValue) :=
  match jGetD cve "descriptions" (.arr []) with
  | .error e => .error e
  | .ok ds => jIter ds

/-- Lines 78-80: the `description` local. -/
def descriptionOf (cve : JValue) : Except Unit JValue :=
  match descsOf cve with
  | .error e => .error e
  | .ok descs => firstEnglishValue descs

/-- The output keys produced by the metrics flattening (lines 88-107),
in the order of the source dict literal. -/
def scoringKeys : List String :=
  ["type", "version", "vectorString", "baseScore", "accessVector", "accessComplexity",
   "authentication", "confidentialityImpact", "integrityImpact", "availabilityImpact",
   "baseSeverity", "exploitabilityScore", "impactScore", "acInsufInfo", "obtainAllPrivilege",
   "obtainUserPrivilege", "obtainOtherPrivilege", "userInteractionRequired"]

/-- Lines 86-107: flatten the first `cvssMetricV2` entry `m` and its `cvssData`
sub-object into the flat field list.  All accesses are `.get` calls, so a
non-dict `m` or non-dict `cvssData` raises `AttributeError`. -/
def flattenMetric (m : JValue) : Except Unit (List (String × JValue)) :=
  match m with
  | .obj mf =>
    match (mf.lookup "cvssData").getD (.obj []) with
    | .obj cf =>
      .ok [("type", objGet mf "type"),
           ("version", objGet cf "version"),
           ("vectorString", objGet cf "vectorString"),
           ("baseScore", objGet cf "baseScore"),
           ("accessVector", objGet cf "accessVector"),
           ("accessComplexity", objGet cf "accessComplexity"),
           ("authentication", objGet cf "authentication"),
           ("confidentialityImpact", objGet cf "confidentialityImpact"),
           ("integrityImpact", objGet cf "integrityImpact"),
           ("availabilityImpact", objGet cf "availabilityImpact"),
           ("baseSeverity", objGet mf "baseSeverity"),
           ("exploitabilityScore", objGet mf "exploitabilityScore"),
           ("impactScore", objGet mf "impactScore"),
           ("acInsufInfo", objGet mf "acInsufInfo"),
           ("obtainAllPrivilege", objGet mf "obtainAllPrivilege"),
           ("obtainUserPrivilege", objGet mf "obtainUserPrivilege"),
           ("obtainOtherPrivilege", objGet mf "obtainOtherPrivilege"),
           ("userInteractionRequired", objGet mf "userInteractionRequired")]
    | _ => .error ()
  | _ => .error ()

/-- Line 83: `cve.get("metrics", {}).get("cvssMetricV2", [])`. -/
def metricsDataOf (cve : JValue) : Except Unit JValue :=
  match jGetD cve "metrics" (.obj []) with
  | .error e => .error e
  | .ok ms => jGetD ms "cvssMetricV2" (.arr [])

/-- Lines 83-107: the `metrics_transformed` local — empty when `metrics_data` is
falsy, the flattening of element 0 when it is a non-empty list.  Indexing `[0]`
into a truthy non-list value ends in an exception (`TypeError`, `KeyError`, or a
later `AttributeError` on the character of a string). -/
def metricsTransformed (cve : JValue) : Except Unit (List (String × JValue)) :=
  match metricsDataOf cve with
  | .error e => .error e
  | .ok md =>
    if md.pyTruthy then
      match md with
      | .arr (m :: _) => flattenMetric m
      | _ => .error ()
    else .ok []

/-- Lines 112-114: one weakness entry of the `weaknesses` loop. -/
def weaknessEntry (w : JValue) : Except Unit JValue :=
  match jGet w "type" with
  | .error e => .error e
  | .ok type_ =>
    match jGetD w "description" (.arr []) with
    | .error e => .error e
    | .ok dv =>
      match jIter dv with
      | .error e => .error e
      | .ok ds =>
        match firstEnglishValue ds with
        | .error e => .error e
        | .ok desc_en => .ok (.obj [("type", type_), ("description", desc_en)])

/-- Lines 110-114: the `weaknesses_list` accumulation over the weakness entries. -/
def weaknessList : List JValue → Except Unit (List JValue)
  | [] => .ok []
  | w :: ws =>
    match weaknessEntry w with
    | .error e => .error e
    | .ok r =>
      match weaknessList ws with
      | .error e => .error e
      | .ok rs => .ok (r :: rs)

/-- Lines 110-114: `weaknesses_list` for a cve object. -/
def weaknessesOf (cve : JValue) : Except Unit (List JValue) :=
  match jGetD cve "weaknesses" (.arr []) with
  | .error e => .error e
  | .ok wv =>
    match jIter wv with
    | .error e => .error e
    | .ok ws => weaknessList ws

/-- Line 117: `list({ref.get("url") for ref in refs if ref.get("url")})`.
Falsy urls are filtered out before the set insertion; inserting a truthy
unhashable value (a list or dict) raises `TypeError`.  The set is realised as a
duplicate-free list; Python's set iteration order is unspecified, so only the
membership and duplicate-freeness of the result are meaningful. -/
def collectRefURLs : List JValue → Except Unit (List JValue)
  | [] => .ok []
  | ref :: rest =>
    match jGet ref "url" with
    | .error e => .error e
    | .ok u =>
      if u.pyTruthy then
        if u.hashable then
          match collectRefURLs rest with
          | .error e => .error e
          | .ok us => .ok (if us.any (primEq u) then us else u :: us)
        else .error ()
      else collectRefURLs rest

/-- The iterable `cve.get("references", [])` as a list of entries (line 117). -/
def refsListOf (cve : JValue) : Except Unit (List JValue) :=
  match jGetD cve "references" (.arr []) with
  | .error e => .error e
  | .ok rv => jIter rv

/-- Line 117: the `references` local. -/
def refsOf (cve : JValue) : Except Unit (List JValue) :=
  match refsListOf cve with
  | .error e => .error e
  | .ok refs => collectRefURLs refs

/-- Lines 74-129 of src/transform.py, except the `collected_at` stamp: the
projection of one `vuln_item` into the flat output dict, evaluated in source
order, with every raised exception mapped to `.error ()` (to be caught by the
per-record `except` at line 134).  The final `match` on `cve` reflects that the
dict literal's `cve.get(...)` calls raise on a non-dict `cve` (that branch is in
fact unreachable: `descriptionOf` already requires a dict). -/
def transformCore (vuln_item : JValue) : Except Unit (List (String × JValue)) :=
  match pyIndex vuln_item "cve" with
  | .error e => .error e
  | .ok cve =>
    match descriptionOf cve with
    | .error e => .error e
    | .ok description =>
      match metricsTransformed cve with
      | .error e => .error e
      | .ok mt =>
        match weaknessesOf cve with
        | .error e => .error e
        | .ok weaknesses_list =>
          match refsOf cve with
          | .error e => .error e
          | .ok references =>
            match cve with
            | .obj cf =>
              .ok ([("id", objGet cf "id"),
                    ("sourceIdentifier", objGet cf "sourceIdentifier"),
                    ("published", objGet cf "published"),
                    ("lastModified", objGet cf "lastModified"),
                    ("vulnStatus", objGet cf "vulnStatus"),
                    ("description", description)]
                   ++ mt
                   ++ [("weaknesses", .arr weaknesses_list),
                       ("references", .arr references)])
            | _ => .error ()

/-- Lines 74-131: one full record, with `collected_at` (line 130) stamped from the
`datetime.utcnow().isoformat()` reading `now` taken while this record is built.
`collected_at` is the last key of the output dict. -/
def transform_record (now : String) (vuln_item : JValue) : Except Unit (List (String × JValue)) :=
  match transformCore vuln_item with
  | .error e => .error e
  | .ok fs => .ok (fs ++ [("collected_at", .str now)])

/-- Whether one `vuln_item` projects without raising, i.e. the per-record `try`
body (lines 74-133) completes.  The timestamp plays no role in success. -/
def projects (v : JValue) : Bool :=
  match transformCore v with
  | .ok _ => true
  | .error _ => false

/-- Lines 71-137: the per-record loop with its `try/except` fault isolation.
`times i` is the clock reading when entry `i` is transformed.  Returns the
accumulated `vulnerabilities` list and the number of entries whose projection
raised (each such entry is logged as a warning — lines 135-136 — and skipped). -/
def transformLoop (times : Nat → String) : Nat → List JValue → List (List (String × JValue)) × Nat
  | _, [] => ([], 0)
  | i, v :: vs =>
    match transform_record (times i) v with
    | .ok r =>
      ((transformLoop times (i + 1) vs).1.cons r, (transformLoop times (i + 1) vs).2)
    | .error _ =>
      ((transformLoop times (i + 1) vs).1, (transformLoop times (i + 1) vs).2 + 1)

/-- Lines 60-68 and 73: the batch-level raw-data validation, independent of the
clock.  `find_one` yields `none` or a stored dict; `not raw_data or
"vulnerabilities" not in raw_data` raises `ValueError` (an empty dict is falsy);
otherwise the loop iterates `raw_data.get("vulnerabilities", [])`, raising
`TypeError` into the outer `try` when that value is not iterable. -/
def rawVulns (rawDoc : Option (List (String × JValue))) : Except Unit (List JValue) :=
  match rawDoc with
  | none => .error ()
  | some fs =>
    if fs.isEmpty then .error ()
    else if (fs.lookup "vulnerabilities").isNone then .error ()
    else jIter (objGet fs "vulnerabilities")

/-- Lines 60-68 and 71-142: a full transformer run over the raw document —
validate via `rawVulns`, then run the per-record loop; a raised batch-level
error is re-raised and aborts the run before the insert step. -/
def transformRun (times : Nat → String) (rawDoc : Option (List (String × JValue))) :
    Except Unit (List (List (String × JValue)) × Nat) :=
  match rawVulns rawDoc with
  | .error e => .error e
  | .ok vulns => .ok (transformLoop times 0 vulns)

/-- Lines 51-156: the normalized store (`nvd_vulnerabilities`) at the end of a
transformer run, starting from any prior contents.  Step one clears the store
unconditionally (line 53); an aborted run leaves it cleared, a completed run
leaves exactly the transformed batch (lines 145-150: an empty batch inserts
nothing, which equals the cleared state). -/
def runNormStore (times : Nat → String) (rawDoc : Option (List (String × JValue))) :
    List (List (String × JValue)) :=
  match transformRun times rawDoc with
  | .ok (vs, _) => vs
  | .error _ => []

/-- Keys other than `collected_at` of a transformed record. -/
def stripCollected (fs : List (String × JValue)) : List (String × JValue) :=
  fs.filter (fun p => p.1 != "collected_at")

/-- Lines 45-72 of src/extract.py: `save_to_mongo(data)` acting on the raw store
(`nvd_raw`), returning the store contents after the call together with whether an
error was logged.  `envOk` is the presence of the two required settings (line 47),
`connOk` the success of the connection probe (line 54).  The `delete_many` at
line 59 runs before the shape check at lines 61-67, and `insert_many([])` raises
`InvalidOperation` (a `PyMongoError`, caught at line 71) after the delete. -/
def save_to_mongo (envOk connOk : Bool) (data : JValue) (store : List JValue) :
    List JValue × Bool :=
  if !envOk then (store, true)
  else if !connOk then (store, true)
  else
    match data with
    | .obj fs => ([.obj fs], false)
    | .arr [] => ([], true)
    | .arr xs => (xs, false)
    | _ => ([], true)

/-- Lines 74-79 of src/extract.py: `main()`.  `fetchResult` is `none` when
`fetch_cve_data` returned `None` (request failure); a fetched but falsy payload
takes the same `else` branch (`if data:`), logging an error and never calling
`save_to_mongo`. -/
def mainRun (envOk connOk : Bool) (fetchResult : Option JValue) (store : List JValue) :
    List JValue × Bool :=
  match fetchResult with
  | some d => if d.pyTruthy then save_to_mongo envOk connOk d store else (store, true)
  | none => (store, true)

/-! ## Helper lemmas -/

theorem lookup_cons {a k : String} {b : JValue} {l : List (String × JValue)} :
    ((a, b) :: l).lookup k = if k == a then some b else l.lookup k := by
  by_cases hk : (k == a) = true <;>
    simp only [List.lookup, hk, if_true, if_false, Bool.false_eq_true, cond_true, cond_false]

theorem lookup_append_left {l1 l2 : List (String × JValue)} {k : String}
    (h : (l1.lookup k).isSome) : (l1 ++ l2).lookup k = l1.lookup k := by
  induction l1 with
  | nil => exact absurd h (by simp [List.lookup])
  | cons p l ih =>
    rcases p with ⟨a, b⟩
    rw [List.cons_append, lookup_cons, lookup_cons]
    by_cases hk : (k == a) = true
    · rw [if_pos hk, if_pos hk]
    · simp only [Bool.not_eq_true] at hk
      rw [if_neg (by simp [hk]), if_neg (by simp [hk])]
      rw [lookup_cons, if_neg (by simp [hk])] at h
      exact ih h

theorem lookup_append_right {l1 l2 : List (String × JValue)} {k : String}
    (h : l1.lookup k = none) : (l1 ++ l2).lookup k = l2.lookup k := by
  induction l1 with
  | nil => rfl
  | cons p l ih =>
    rcases p with ⟨a, b⟩
    rw [lookup_cons] at h
    by_cases hk : (k == a) = true
    · rw [if_pos hk] at h
      exact Option.noConfusion h
    · simp only [Bool.not_eq_true] at hk
      rw [if_neg (by simp [hk])] at h
      rw [List.cons_append, lookup_cons, if_neg (by simp [hk])]
      exact ih h

theorem lookup_eq_none_of_keys {l : List (String × JValue)} {k : String}
    (h : k ∉ l.map Prod.fst) : l.lookup k = none := by
  induction l with
  | nil => rfl
  | cons p l ih =>
    rcases p with ⟨a, b⟩
    simp only [List.map_cons, List.mem_cons, not_or] at h
    rw [lookup_cons, if_neg (by simp [h.1])]
    exact ih h.2

theorem lookup_isSome_of_keys {l : List (String × JValue)} {k : String}
    (h : k ∈ l.map Prod.fst) : (l.lookup k).isSome := by
  induction l with
  | nil => exact absurd h (by simp)
  | cons p l ih =>
    rcases p with ⟨a, b⟩
    rw [lookup_cons]
    by_cases hk : (k == a) = true
    · rw [if_pos hk]
      rfl
    · simp only [Bool.not_eq_true] at hk
      rw [if_neg (by simp [hk])]
      simp only [List.map_cons, List.mem_cons] at h
      rcases h with h | h
      · rw [beq_eq_false_iff_ne] at hk
        exact absurd h hk
      · exact ih h

theorem isEn_eq_true_iff {v : JValue} : isEn v = true ↔ v = .str "en" := by
  cases v <;> simp [isEn]

theorem primEq_eq {u v : JValue} (h : primEq u v = true) : u = v := by
  cases u <;> cases v <;> simp [primEq] at h <;> simp [h]

theorem primEq_refl {u : JValue} (h : u.hashable = true) : primEq u u = true := by
  cases u <;> simp [JValue.hashable, primEq] at h ⊢

/-- Entries before the first English entry that are not English-tagged are walked
over by the `next(...)` generator. -/
theorem firstEnglishValue_append {pre rest : List JValue}
    (hpre : ∀ x ∈ pre, jGet x "lang" ≠ .ok (.str "en")) {v : JValue}
    (h : firstEnglishValue (pre ++ rest) = .ok v) :
    firstEnglishValue rest = .ok v := by
  induction pre with
  | nil => exact h
  | cons d ds ih =>
    rw [List.cons_append] at h
    unfold firstEnglishValue at h
    split at h
    · exact Except.noConfusion h
    next lang hlang =>
      by_cases he : isEn lang = true
      · rw [isEn_eq_true_iff] at he
        subst he
        exact absurd hlang (hpre d (by simp))
      · simp only [Bool.not_eq_true] at he
        rw [he] at h
        simp only [if_false, Bool.false_eq_true] at h
        exact ih (fun x hx => hpre x (by simp [hx])) h

/-- When no entry is English-tagged, the `next(...)` default `""` is returned. -/
theorem firstEnglishValue_none {l : List JValue}
    (hl : ∀ x ∈ l, jGet x "lang" ≠ .ok (.str "en")) {v : JValue}
    (h : firstEnglishValue l = .ok v) : v = .str "" := by
  induction l with
  | nil =>
    unfold firstEnglishValue at h
    injection h with h
    exact h.symm
  | cons d ds ih =>
    unfold firstEnglishValue at h
    split at h
    · exact Except.noConfusion h
    next lang hlang =>
      by_cases he : isEn lang = true
      · rw [isEn_eq_true_iff] at he
        subst he
        exact absurd hlang (hl d (by simp))
      · simp only [Bool.not_eq_true] at he
        rw [he] at h
        simp only [if_false, Bool.false_eq_true] at h
        exact ih (fun x hx => hl x (by simp [hx])) h

/-- At an English-tagged entry, the generator yields that entry's `value`. -/
theorem firstEnglishValue_cons_en {d : JValue} {ds : List JValue}
    (hd : jGet d "lang" = .ok (.str "en")) :
    firstEnglishValue (d :: ds) = jGet d "value" := by
  unfold firstEnglishValue
  rw [hd]
  simp [isEn]

/-- A record that projects: the exact shape of the assembled dict of
`transformCore`, together with the sub-results it is built from. -/
theorem transformCore_ok_elim {v : JValue} {fs : List (String × JValue)}
    (h : transformCore v = .ok fs) :
    ∃ (cf : List (String × JValue)) (dv : JValue) (mt : List (String × JValue))
      (wl rl : List JValue),
      pyIndex v "cve" = .ok (.obj cf) ∧
      descriptionOf (.obj cf) = .ok dv ∧
      metricsTransformed (.obj cf) = .ok mt ∧
      weaknessesOf (.obj cf) = .ok wl ∧
      refsOf (.obj cf) = .ok rl ∧
      fs = [("id", objGet cf "id"),
            ("sourceIdentifier", objGet cf "sourceIdentifier"),
            ("published", objGet cf "published"),
            ("lastModified", objGet cf "lastModified"),
            ("vulnStatus", objGet cf "vulnStatus"),
            ("description", dv)]
           ++ mt
           ++ [("weaknesses", .arr wl), ("references", .arr rl)] := by
  unfold transformCore at h
  split at h
  · exact Except.noConfusion h
  next cve hcve =>
  split at h
  · exact Except.noConfusion h
  next dv hdv =>
  split at h
  · exact Except.noConfusion h
  next mt hmt =>
  split at h
  · exact Except.noConfusion h
  next wl hwl =>
  split at h
  · exact Except.noConfusion h
  next rl hrl =>
  split at h
  next cf =>
    injection h with h
    exact ⟨cf, dv, mt, wl, rl, hcve, hdv, hmt, hwl, hrl, h.symm⟩
  all_goals exact Except.noConfusion h

/-- A full record is the core projection with `collected_at` appended. -/
theorem transform_record_ok_elim {now : String} {v : JValue} {r : List (String × JValue)}
    (h : transform_record now v = .ok r) :
    ∃ fs, transformCore v = .ok fs ∧ r = fs ++ [("collected_at", .str now)] := by
  unfold transform_record at h
  split at h
  · exact Except.noConfusion h
  next fs hfs =>
    injection h with h
    exact ⟨fs, hfs, h.symm⟩

/-- The keys of the flattened metric dict, in order. -/
theorem flattenMetric_keys {m : JValue} {mt : List (String × JValue)}
    (h : flattenMetric m = .ok mt) : mt.map Prod.fst = scoringKeys := by
  unfold flattenMetric at h
  split at h
  · split at h
    · injection h with h
      subst h
      rfl
    · exact Except.noConfusion h
  · exact Except.noConfusion h

/-- `metrics_transformed` is either empty (falsy metrics list) or the flattening
of the first element of the metrics list. -/
theorem metricsTransformed_elim {cve : JValue} {mt : List (String × JValue)}
    (h : metricsTransformed cve = .ok mt) :
    (∃ md, metricsDataOf cve = .ok md ∧ md.pyTruthy = false ∧ mt = []) ∨
    (∃ m rest, metricsDataOf cve = .ok (.arr (m :: rest)) ∧ flattenMetric m = .ok mt) := by
  unfold metricsTransformed at h
  split at h
  · exact Except.noConfusion h
  next md hmd =>
    by_cases ht : md.pyTruthy = true
    · rw [if_pos ht] at h
      right
      split at h
      next m rest => exact ⟨m, rest, hmd, h⟩
      · exact Except.noConfusion h
    · simp only [Bool.not_eq_true] at ht
      rw [if_neg (by simp [ht])] at h
      injection h with h
      exact Or.inl ⟨md, hmd, ht, h.symm⟩

/-- The computed reference-url set: every member is hashable, there are no
duplicates, and membership is exactly "some reference entry has this truthy
`url` value". -/
theorem collectRefURLs_ok {refs us : List JValue}
    (h : collectRefURLs refs = .ok us) :
    (∀ x ∈ us, x.hashable = true) ∧ us.Nodup ∧
    (∀ u, u ∈ us ↔ (u.pyTruthy = true ∧ ∃ r ∈ refs, jGet r "url" = .ok u)) := by
  induction refs generalizing us with
  | nil =>
    unfold collectRefURLs at h
    injection h with h
    subst h
    exact ⟨by simp, List.nodup_nil, by simp⟩
  | cons ref rest ih =>
    unfold collectRefURLs at h
    split at h
    · exact Except.noConfusion h
    next u0 hu0 =>
      by_cases ht : u0.pyTruthy = true
      · rw [if_pos ht] at h
        by_cases hh : u0.hashable = true
        · rw [if_pos hh] at h
          split at h
          · exact Except.noConfusion h
          next us' hus' =>
            obtain ⟨H, N, M⟩ := ih hus'
            by_cases hin : us'.any (primEq u0) = true
            · rw [if_pos hin] at h
              injection h with h
              subst h
              refine ⟨H, N, fun u => ⟨fun hu => ?_, fun hex => ?_⟩⟩
              · obtain ⟨htu, r, hr, hju⟩ := (M u).mp hu
                exact ⟨htu, r, List.mem_cons_of_mem _ hr, hju⟩
              · obtain ⟨htu, r, hr, hju⟩ := hex
                rcases List.mem_cons.mp hr with rfl | hr
                · rw [hu0] at hju
                  injection hju with hju
                  subst hju
                  obtain ⟨x, hx, hpx⟩ := List.any_eq_true.mp hin
                  rw [primEq_eq hpx]
                  exact hx
                · exact (M u).mpr ⟨htu, r, hr, hju⟩
            · rw [if_neg (by simp [Bool.not_eq_true] at hin ⊢; exact hin)] at h
              injection h with h
              subst h
              refine ⟨?_, ?_, fun u => ⟨fun hu => ?_, fun hex => ?_⟩⟩
              · intro x hx
                rcases List.mem_cons.mp hx with rfl | hx
                · exact hh
                · exact H x hx
              · rw [List.nodup_cons]
                refine ⟨fun hcon => hin ?_, N⟩
                exact List.any_eq_true.mpr ⟨u0, hcon, primEq_refl hh⟩
              · rcases List.mem_cons.mp hu with rfl | hu
                · exact ⟨ht, ref, List.mem_cons_self _ _, hu0⟩
                · obtain ⟨htu, r, hr, hju⟩ := (M u).mp hu
                  exact ⟨htu, r, List.mem_cons_of_mem _ hr, hju⟩
              · obtain ⟨htu, r, hr, hju⟩ := hex
                rcases List.mem_cons.mp hr with rfl | hr
                · rw [hu0] at hju
                  injection hju with hju
                  subst hju
                  exact List.mem_cons_self _ _
                · exact List.mem_cons_of_mem _ ((M u).mpr ⟨htu, r, hr, hju⟩)
        · simp only [Bool.not_eq_true] at hh
          rw [if_neg (by simp [hh])] at h
          exact Except.noConfusion h
      · simp only [Bool.not_eq_true] at ht
        rw [if_neg (by simp [ht])] at h
        obtain ⟨H, N, M⟩ := ih h
        refine ⟨H, N, fun u => ⟨fun hu => ?_, fun hex => ?_⟩⟩
        · obtain ⟨htu, r, hr, hju⟩ := (M u).mp hu
          exact ⟨htu, r, List.mem_cons_of_mem _ hr, hju⟩
        · obtain ⟨htu, r, hr, hju⟩ := hex
          rcases List.mem_cons.mp hr with rfl | hr
          · rw [hu0] at hju
            injection hju with hju
            subst hju
            rw [htu] at ht
            exact Bool.noConfusion ht
          · exact (M u).mpr ⟨htu, r, hr, hju⟩

/-- Erasing `collected_at` erases exactly the appended stamp. -/
theorem stripCollected_stamp (fs : List (String × JValue)) (now : String) :
    stripCollected (fs ++ [("collected_at", .str now)]) = stripCollected fs := by
  unfold stripCollected
  rw [List.filter_append]
  simp

/-- The loop's outputs are identical under two clocks once `collected_at` is
erased, and the warning counts agree. -/
theorem transformLoop_strip (t1 t2 : Nat → String) (vs : List JValue) (i j : Nat) :
    (transformLoop t1 i vs).1.map stripCollected = (transformLoop t2 j vs).1.map stripCollected ∧
    (transformLoop t1 i vs).2 = (transformLoop t2 j vs).2 := by
  induction vs generalizing i j with
  | nil => exact ⟨rfl, rfl⟩
  | cons v vs ih =>
    unfold transformLoop transform_record
    cases hc : transformCore v with
    | error e =>
      simp only [hc]
      exact ⟨(ih (i + 1) (j + 1)).1, by rw [(ih (i + 1) (j + 1)).2]⟩
    | ok fs =>
      simp only [hc, List.map_cons]
      refine ⟨?_, (ih (i + 1) (j + 1)).2⟩
      rw [stripCollected_stamp, stripCollected_stamp, (ih (i + 1) (j + 1)).1]

/-- Warning count and output count of the loop: one warning per non-projecting
entry, one output record per projecting entry. -/
theorem transformLoop_counts (times : Nat → String) (i : Nat) (vs : List JValue) :
    (transformLoop times i vs).2 = (vs.filter (fun v => !projects v)).length ∧
    (transformLoop times i vs).1.length + (transformLoop times i vs).2 = vs.length := by
  induction vs generalizing i with
  | nil => exact ⟨rfl, rfl⟩
  | cons v vs ih =>
    unfold transformLoop transform_record
    cases hc : transformCore v with
    | error e =>
      have hp : projects v = false := by unfold projects; rw [hc]
      simp only [hc, List.filter_cons, hp, Bool.not_false, if_true, List.length_cons]
      obtain ⟨ih1, ih2⟩ := ih (i + 1)
      constructor
      · rw [ih1]
      · omega
    | ok fs =>
      have hp : projects v = true := by unfold projects; rw [hc]
      simp only [hc, List.filter_cons, hp, Bool.not_true, Bool.false_eq_true, if_false,
        List.length_cons]
      obtain ⟨ih1, ih2⟩ := ih (i + 1)
      exact ⟨ih1, by omega⟩

/-- The `description` field of a record that projects is the `descriptionOf` its
cve object. -/
theorem lookup_description {now : String} {item : JValue} {r : List (String × JValue)}
    {cve : JValue} (h : transform_record now item = .ok r)
    (hcve : pyIndex item "cve" = .ok cve) :
    ∃ dv, descriptionOf cve = .ok dv ∧ r.lookup "description" = some dv := by
  obtain ⟨fs, hfs, hr⟩ := transform_record_ok_elim h
  obtain ⟨cf, dv, mt, wl, rl, hcve', hdv, hmt, hwl, hrl, hshape⟩ := transformCore_ok_elim hfs
  rw [hcve] at hcve'
  injection hcve' with hcve'
  subst hcve'
  refine ⟨dv, hdv, ?_⟩
  subst hshape
  subst hr
  rw [List.append_assoc, List.append_assoc]
  have h1 : ([("id", objGet cf "id"),
              ("sourceIdentifier", objGet cf "sourceIdentifier"),
              ("published", objGet cf "published"),
              ("lastModified", objGet cf "lastModified"),
              ("vulnStatus", objGet cf "vulnStatus"),
              ("description", dv)] : List (String × JValue)).lookup "description"
            = some dv := rfl
  rw [lookup_append_left (by rw [h1]; rfl)]
  exact h1

theorem scoring_not_base :
    ∀ k ∈ scoringKeys,
      ¬(k ∈ (["id", "sourceIdentifier", "published", "lastModified", "vulnStatus",
              "description"] : List String)) := by decide

theorem scoring_not_tail :
    ∀ k ∈ scoringKeys,
      ¬(k ∈ (["weaknesses", "references", "collected_at"] : List String)) := by decide

/-- The `references` field of a record that projects is the url set of its cve
object. -/
theorem lookup_references {now : String} {item : JValue} {r : List (String × JValue)}
    {cve : JValue} (h : transform_record now item = .ok r)
    (hcve : pyIndex item "cve" = .ok cve) :
    ∃ rl, refsOf cve = .ok rl ∧ r.lookup "references" = some (.arr rl) := by
  obtain ⟨fs, hfs, hr⟩ := transform_record_ok_elim h
  obtain ⟨cf, dv, mt, wl, rl, hcve', hdv, hmt, hwl, hrl, hshape⟩ := transformCore_ok_elim hfs
  rw [hcve] at hcve'
  injection hcve' with hcve'
  subst hcve'
  refine ⟨rl, hrl, ?_⟩
  subst hshape
  subst hr
  rw [List.append_assoc, List.append_assoc]
  rw [lookup_append_right (by rfl)]
  have hmtn : mt.lookup "references" = none := by
    rcases metricsTransformed_elim hmt with ⟨md, _, _, hmt0⟩ | ⟨m, rest, _, hfm⟩
    · rw [hmt0]
      rfl
    · exact lookup_eq_none_of_keys (by rw [flattenMetric_keys hfm]; decide)
  rw [lookup_append_right hmtn]
  rfl

/-- The scoring fields of a record that projects agree with its
`metrics_transformed` dict on every scoring key. -/
theorem lookup_scoring {now : String} {item : JValue} {r : List (String × JValue)}
    {cve : JValue} (h : transform_record now item = .ok r)
    (hcve : pyIndex item "cve" = .ok cve) :
    ∃ mt, metricsTransformed cve = .ok mt ∧
      ∀ k ∈ scoringKeys, r.lookup k = mt.lookup k := by
  obtain ⟨fs, hfs, hr⟩ := transform_record_ok_elim h
  obtain ⟨cf, dv, mt, wl, rl, hcve', hdv, hmt, hwl, hrl, hshape⟩ := transformCore_ok_elim hfs
  rw [hcve] at hcve'
  injection hcve' with hcve'
  subst hcve'
  refine ⟨mt, hmt, fun k hk => ?_⟩
  subst hshape
  subst hr
  rw [List.append_assoc, List.append_assoc]
  rw [lookup_append_right (lookup_eq_none_of_keys (by
    simp only [List.map_cons, List.map_nil]
    exact scoring_not_base k hk))]
  rcases metricsTransformed_elim hmt with ⟨md, _, _, hmt0⟩ | ⟨m, rest, _, hfm⟩
  · subst hmt0
    rw [List.nil_append]
    exact lookup_eq_none_of_keys (by
      simp only [List.map_append, List.map_cons, List.map_nil]
      exact scoring_not_tail k hk)
  · exact lookup_append_left (lookup_isSome_of_keys (by
      rw [flattenMetric_keys hfm]; exact hk))

/-- A successful transformer run on a raw doc with a `vulnerabilities` list is
exactly the loop over that list. -/
theorem transformRun_ok_elim {times : Nat → String} {rawDoc : List (String × JValue)}
    {out : List (List (String × JValue))} {w : Nat} {vs : List JValue}
    (hvul : rawDoc.lookup "vulnerabilities" = some (.arr vs))
    (h : transformRun times (some rawDoc) = .ok (out, w)) :
    out = (transformLoop times 0 vs).1 ∧ w = (transformLoop times 0 vs).2 := by
  have hv : rawVulns (some rawDoc) = .ok vs := by
    simp only [rawVulns]
    by_cases he : rawDoc.isEmpty = true
    · rw [List.isEmpty_iff] at he
      subst he
      exact Option.noConfusion hvul
    · rw [if_neg (by simp [Bool.not_eq_true] at he ⊢; exact he)]
      rw [if_neg (by rw [hvul]; simp)]
      have hob : objGet rawDoc "vulnerabilities" = .arr vs := by
        unfold objGet
        rw [hvul]
        rfl
      rw [hob]
      rfl
  simp only [transformRun, hv] at h
  injection h with h
  exact ⟨congrArg Prod.fst h.symm, congrArg Prod.snd h.symm⟩

/-! ## Claim theorems -/

/-- C1: a raw payload whose `vulnerabilities` sequence has `N` entries of which
`M` raise a per-record projection error yields exactly `N − M` transformed
records; each failing entry contributes zero output records, produces one
logged warning, and processing continues with the remaining entries. -/
theorem transform_fault_isolation (times : Nat → String)
    (rawDoc : List (String × JValue)) (vs : List JValue)
    (out : List (List (String × JValue))) (w : Nat)
    (hvul : rawDoc.lookup "vulnerabilities" = some (.arr vs))
    (hrun : transformRun times (some rawDoc) = .ok (out, w)) :
    out.length = vs.length - (vs.filter (fun v => !projects v)).length ∧
    w = (vs.filter (fun v => !projects v)).length ∧
    out.length + w = vs.length := by
  obtain ⟨ho, hw⟩ := transformRun_ok_elim hvul hrun
  obtain ⟨h1, h2⟩ := transformLoop_counts times 0 vs
  subst ho
  subst hw
  exact ⟨by omega, h1, h2⟩

/-- Witness for C1: a two-entry payload whose second entry is malformed yields
one record and one warning. -/
theorem transform_fault_isolation_witness :
    ([(("vulnerabilities" : String), JValue.arr [.obj [("cve", .obj [])], .str "bad"])].lookup
        "vulnerabilities" = some (.arr [.obj [("cve", .obj [])], .str "bad"])) ∧
    (transformRun (fun _ => "T")
        (some [("vulnerabilities", .arr [.obj [("cve", .obj [])], .str "bad"])]) =
      .ok ([[("id", .null), ("sourceIdentifier", .null), ("published", .null),
             ("lastModified", .null), ("vulnStatus", .null), ("description", .str ""),
             ("weaknesses", .arr []), ("references", .arr []),
             ("collected_at", .str "T")]], 1)) ∧
    ([[("id", JValue.null), ("sourceIdentifier", JValue.null), ("published", JValue.null),
       ("lastModified", JValue.null), ("vulnStatus", JValue.null),
       ("description", JValue.str ""), ("weaknesses", JValue.arr []),
       ("references", JValue.arr []), ("collected_at", JValue.str "T")]].length
        = [JValue.obj [("cve", .obj [])], JValue.str "bad"].length -
          (([JValue.obj [("cve", .obj [])], JValue.str "bad"]).filter
            (fun v => !projects v)).length ∧
     (1 : Nat) = (([JValue.obj [("cve", .obj [])], JValue.str "bad"]).filter
            (fun v => !projects v)).length ∧
     [[("id", JValue.null), ("sourceIdentifier", JValue.null), ("published", JValue.null),
       ("lastModified", JValue.null), ("vulnStatus", JValue.null),
       ("description", JValue.str ""), ("weaknesses", JValue.arr []),
       ("references", JValue.arr []), ("collected_at", JValue.str "T")]].length + 1
        = [JValue.obj [("cve", .obj [])], JValue.str "bad"].length) :=
  ⟨rfl, rfl,
   transform_fault_isolation (fun _ => "T")
     [("vulnerabilities", JValue.arr [.obj [("cve", .obj [])], .str "bad"])]
     [JValue.obj [("cve", .obj [])], JValue.str "bad"]
     [[("id", JValue.null), ("sourceIdentifier", JValue.null), ("published", JValue.null),
       ("lastModified", JValue.null), ("vulnStatus", JValue.null),
       ("description", JValue.str ""), ("weaknesses", JValue.arr []),
       ("references", JValue.arr []), ("collected_at", JValue.str "T")]]
     1 rfl rfl⟩

/-- C6: when the raw store yields no document, or the retrieved raw document
lacks a `vulnerabilities` field, the transformer run aborts with an error and
no normalized documents are written (the store holds the cleared state). -/
theorem transform_missing_raw_aborts (times : Nat → String)
    (rawDoc : Option (List (String × JValue)))
    (h : ∀ fs, rawDoc = some fs → fs.lookup "vulnerabilities" = none) :
    transformRun times rawDoc = .error () ∧ runNormStore times rawDoc = [] := by
  have hv : rawVulns rawDoc = .error () := by
    cases rawDoc with
    | none => rfl
    | some fs =>
      have hf := h fs rfl
      simp only [rawVulns]
      by_cases he : fs.isEmpty = true
      · rw [if_pos he]
      · rw [if_neg (by simp only [Bool.not_eq_true] at he ⊢; simp [he])]
        rw [if_pos (by rw [hf]; rfl)]
  have herr : transformRun times rawDoc = .error () := by
    simp only [transformRun, hv]
  refine ⟨herr, ?_⟩
  simp only [runNormStore, herr]

/-- Witness for C6: an absent raw document aborts the run. -/
theorem transform_missing_raw_aborts_witness :
    (∀ fs, (none : Option (List (String × JValue))) = some fs →
        fs.lookup "vulnerabilities" = none) ∧
    (transformRun (fun _ => "") none = .error () ∧
     runNormStore (fun _ => "") none = []) :=
  ⟨fun _ hf => Option.noConfusion hf,
   transform_missing_raw_aborts (fun _ => "") none (fun _ hf => Option.noConfusion hf)⟩

/-- C7: two transformer runs over the same unchanged raw document leave the
normalized store with the same records in the same order, whatever the two
clocks read; only the `collected_at` field can differ between the runs. -/
theorem transform_idempotent_modulo_timestamp (t1 t2 : Nat → String)
    (rawDoc : Option (List (String × JValue))) :
    (runNormStore t1 rawDoc).map stripCollected
      = (runNormStore t2 rawDoc).map stripCollected := by
  cases hv : rawVulns rawDoc with
  | error e => simp only [runNormStore, transformRun, hv]
  | ok vulns =>
    simp only [runNormStore, transformRun, hv]
    exact (transformLoop_strip t1 t2 vulns 0 0).1

/-- C2: for a record that projects and whose cve `descriptions` sequence has a
first English-tagged entry `d` (every entry before it tagged non-English), the
output `description` equals `d`'s `value`, regardless of the entries before or
after it; and when no entry is English-tagged, the output `description` is the
empty string. -/
theorem transform_description_first_english :
    (∀ (now : String) (item : JValue) (r : List (String × JValue)) (cve : JValue)
        (pre post : List JValue) (d v : JValue),
        transform_record now item = .ok r →
        pyIndex item "cve" = .ok cve →
        descsOf cve = .ok (pre ++ d :: post) →
        (∀ x ∈ pre, jGet x "lang" ≠ .ok (.str "en")) →
        jGet d "lang" = .ok (.str "en") →
        jGet d "value" = .ok v →
        r.lookup "description" = some v) ∧
    (∀ (now : String) (item : JValue) (r : List (String × JValue)) (cve : JValue)
        (descs : List JValue),
        transform_record now item = .ok r →
        pyIndex item "cve" = .ok cve →
        descsOf cve = .ok descs →
        (∀ x ∈ descs, jGet x "lang" ≠ .ok (.str "en")) →
        r.lookup "description" = some (.str "")) := by
  constructor
  · intro now item r cve pre post d v h hcve hdescs hpre hd hv
    obtain ⟨dv, hdv, hlook⟩ := lookup_description h hcve
    have hfe : firstEnglishValue (pre ++ d :: post) = .ok dv := by
      simp only [descriptionOf, hdescs] at hdv
      exact hdv
    have h2 := firstEnglishValue_append hpre hfe
    rw [firstEnglishValue_cons_en hd] at h2
    rw [hv] at h2
    injection h2 with h2
    subst h2
    exact hlook
  · intro now item r cve descs h hcve hdescs hall
    obtain ⟨dv, hdv, hlook⟩ := lookup_description h hcve
    have hfe : firstEnglishValue descs = .ok dv := by
      simp only [descriptionOf, hdescs] at hdv
      exact hdv
    rw [firstEnglishValue_none hall hfe] at hlook
    exact hlook

/-- Witness for C2: a French entry, then an English entry with a value, then a
malformed entry; and a record with only a French entry. -/
theorem transform_description_first_english_witness :
    (transform_record "T"
        (.obj [("cve", .obj [("descriptions", .arr
          [.obj [("lang", .str "fr")],
           .obj [("lang", .str "en"), ("value", .str "hello")],
           .obj []])])]) =
      .ok [("id", .null), ("sourceIdentifier", .null), ("published", .null),
           ("lastModified", .null), ("vulnStatus", .null), ("description", .str "hello"),
           ("weaknesses", .arr []), ("references", .arr []), ("collected_at", .str "T")] ∧
     pyIndex (.obj [("cve", .obj [("descriptions", .arr
          [.obj [("lang", .str "fr")],
           .obj [("lang", .str "en"), ("value", .str "hello")],
           .obj []])])]) "cve" =
        .ok (.obj [("descriptions", .arr
          [.obj [("lang", .str "fr")],
           .obj [("lang", .str "en"), ("value", .str "hello")],
           .obj []])]) ∧
     descsOf (.obj [("descriptions", .arr
          [.obj [("lang", .str "fr")],
           .obj [("lang", .str "en"), ("value", .str "hello")],
           .obj []])]) =
        .ok ([.obj [("lang", .str "fr")]] ++
             (.obj [("lang", .str "en"), ("value", .str "hello")]) :: [.obj []]) ∧
     (∀ x ∈ [JValue.obj [("lang", .str "fr")]], jGet x "lang" ≠ .ok (.str "en")) ∧
     jGet (.obj [("lang", .str "en"), ("value", .str "hello")]) "lang" = .ok (.str "en") ∧
     jGet (.obj [("lang", .str "en"), ("value", .str "hello")]) "value" = .ok (.str "hello") ∧
     ([("id", JValue.null), ("sourceIdentifier", JValue.null), ("published", JValue.null),
       ("lastModified", JValue.null), ("vulnStatus", JValue.null),
       ("description", JValue.str "hello"), ("weaknesses", JValue.arr []),
       ("references", JValue.arr []),
       ("collected_at", JValue.str "T")].lookup "description" = some (.str "hello"))) ∧
    (transform_record "T"
        (.obj [("cve", .obj [("descriptions", .arr [.obj [("lang", .str "fr"),
          ("value", .str "x")]])])]) =
      .ok [("id", .null), ("sourceIdentifier", .null), ("published", .null),
           ("lastModified", .null), ("vulnStatus", .null), ("description", .str ""),
           ("weaknesses", .arr []), ("references", .arr []), ("collected_at", .str "T")] ∧
     (∀ x ∈ [JValue.obj [("lang", .str "fr"), ("value", .str "x")]],
        jGet x "lang" ≠ .ok (.str "en")) ∧
     ([("id", JValue.null), ("sourceIdentifier", JValue.null), ("published", JValue.null),
       ("lastModified", JValue.null), ("vulnStatus", JValue.null),
       ("description", JValue.str ""), ("weaknesses", JValue.arr []),
       ("references", JValue.arr []),
       ("collected_at", JValue.str "T")].lookup "description" = some (.str ""))) := by
  have hfr : ∀ x ∈ [JValue.obj [("lang", JValue.str "fr")]],
      jGet x "lang" ≠ .ok (.str "en") := by
    intro x hx
    have hx' : x = JValue.obj [("lang", JValue.str "fr")] := by simpa using hx
    subst hx'
    intro hc
    have hc1 : JValue.str "fr" = JValue.str "en" := by injection hc
    have hc2 : "fr" = "en" := by injection hc1
    exact absurd hc2 (by decide)
  have hfr2 : ∀ x ∈ [JValue.obj [("lang", JValue.str "fr"), ("value", JValue.str "x")]],
      jGet x "lang" ≠ .ok (.str "en") := by
    intro x hx
    have hx' : x = JValue.obj [("lang", JValue.str "fr"), ("value", JValue.str "x")] := by
      simpa using hx
    subst hx'
    intro hc
    have hc1 : JValue.str "fr" = JValue.str "en" := by injection hc
    have hc2 : "fr" = "en" := by injection hc1
    exact absurd hc2 (by decide)
  exact ⟨⟨rfl, rfl, rfl, hfr, rfl, rfl,
          transform_description_first_english.1 "T"
            (.obj [("cve", .obj [("descriptions", .arr
              [.obj [("lang", .str "fr")],
               .obj [("lang", .str "en"), ("value", .str "hello")],
               .obj []])])])
            [("id", .null), ("sourceIdentifier", .null), ("published", .null),
             ("lastModified", .null), ("vulnStatus", .null), ("description", .str "hello"),
             ("weaknesses", .arr []), ("references", .arr []), ("collected_at", .str "T")]
            (.obj [("descriptions", .arr
              [.obj [("lang", .str "fr")],
               .obj [("lang", .str "en"), ("value", .str "hello")],
               .obj []])])
            [.obj [("lang", .str "fr")]] [.obj []]
            (.obj [("lang", .str "en"), ("value", .str "hello")]) (.str "hello")
            rfl rfl rfl hfr rfl rfl⟩,
         ⟨rfl, hfr2,
          transform_description_first_english.2 "T"
            (.obj [("cve", .obj [("descriptions", .arr [.obj [("lang", .str "fr"),
              ("value", .str "x")]])])])
            [("id", .null), ("sourceIdentifier", .null), ("published", .null),
             ("lastModified", .null), ("vulnStatus", .null), ("description", .str ""),
             ("weaknesses", .arr []), ("references", .arr []), ("collected_at", .str "T")]
            (.obj [("descriptions", .arr [.obj [("lang", .str "fr"), ("value", .str "x")]])])
            [.obj [("lang", .str "fr"), ("value", .str "x")]]
            rfl rfl rfl hfr2⟩⟩

/-- C10: when the first English-tagged entry of `descriptions` has no `value`
key, the output `description` is `None` (null) — not the empty string, and not
the value of any later English entry. -/
theorem transform_description_missing_value_null :
    ∀ (now : String) (item : JValue) (r : List (String × JValue)) (cve : JValue)
      (pre post : List JValue) (dfs : List (String × JValue)),
      transform_record now item = .ok r →
      pyIndex item "cve" = .ok cve →
      descsOf cve = .ok (pre ++ (.obj dfs) :: post) →
      (∀ x ∈ pre, jGet x "lang" ≠ .ok (.str "en")) →
      dfs.lookup "lang" = some (.str "en") →
      dfs.lookup "value" = none →
      r.lookup "description" = some .null ∧ JValue.null ≠ .str "" := by
  intro now item r cve pre post dfs h hcve hdescs hpre hlang hval
  obtain ⟨dv, hdv, hlook⟩ := lookup_description h hcve
  have hfe : firstEnglishValue (pre ++ (.obj dfs) :: post) = .ok dv := by
    simp only [descriptionOf, hdescs] at hdv
    exact hdv
  have h2 := firstEnglishValue_append hpre hfe
  rw [firstEnglishValue_cons_en (by simp [jGet, hlang])] at h2
  have h3 : jGet (.obj dfs) "value" = .ok .null := by simp [jGet, hval]
  rw [h3] at h2
  injection h2 with h2
  subst h2
  exact ⟨hlook, fun hc => JValue.noConfusion hc⟩

/-- Witness for C10: the first English entry lacks `value`; a later English
entry with a value is ignored. -/
theorem transform_description_missing_value_null_witness :
    transform_record "T"
        (.obj [("cve", .obj [("descriptions", .arr
          [.obj [("lang", .str "en")],
           .obj [("lang", .str "en"), ("value", .str "late")]])])]) =
      .ok [("id", .null), ("sourceIdentifier", .null), ("published", .null),
           ("lastModified", .null), ("vulnStatus", .null), ("description", .null),
           ("weaknesses", .arr []), ("references", .arr []), ("collected_at", .str "T")] ∧
    descsOf (.obj [("descriptions", .arr
          [.obj [("lang", .str "en")],
           .obj [("lang", .str "en"), ("value", .str "late")]])]) =
      .ok ([] ++ (JValue.obj [("lang", .str "en")]) ::
           [JValue.obj [("lang", .str "en"), ("value", .str "late")]]) ∧
    ([(("lang" : String), JValue.str "en")].lookup "lang" = some (.str "en")) ∧
    ([(("lang" : String), JValue.str "en")].lookup "value" = none) ∧
    (([("id", JValue.null), ("sourceIdentifier", JValue.null), ("published", JValue.null),
       ("lastModified", JValue.null), ("vulnStatus", JValue.null),
       ("description", JValue.null), ("weaknesses", JValue.arr []),
       ("references", JValue.arr []),
       ("collected_at", JValue.str "T")].lookup "description" = some JValue.null) ∧
     JValue.null ≠ JValue.str "") :=
  ⟨rfl, rfl, rfl, rfl,
   transform_description_missing_value_null "T"
     (.obj [("cve", .obj [("descriptions", .arr
       [.obj [("lang", .str "en")],
        .obj [("lang", .str "en"), ("value", .str "late")]])])])
     [("id", .null), ("sourceIdentifier", .null), ("published", .null),
      ("lastModified", .null), ("vulnStatus", .null), ("description", .null),
      ("weaknesses", .arr []), ("references", .arr []), ("collected_at", .str "T")]
     (.obj [("descriptions", .arr
       [.obj [("lang", .str "en")],
        .obj [("lang", .str "en"), ("value", .str "late")]])])
     [] [.obj [("lang", .str "en"), ("value", .str "late")]]
     [("lang", .str "en")]
     rfl rfl rfl (fun x hx => absurd hx (List.not_mem_nil x)) rfl rfl⟩

/-- C3: for a record that projects, a non-empty `cvssMetricV2` list contributes
exactly the flattening of its element 0 — which depends only on that element,
so later entries are ignored — while a falsy (empty or defaulted-from-absent)
metrics list leaves every scoring key absent from the output record. -/
theorem transform_metrics_first_entry_only :
    (∀ (now : String) (item : JValue) (r : List (String × JValue)) (cve : JValue)
        (m : JValue) (rest : List JValue),
        transform_record now item = .ok r →
        pyIndex item "cve" = .ok cve →
        metricsDataOf cve = .ok (.arr (m :: rest)) →
        ∃ mt, flattenMetric m = .ok mt ∧ ∀ k ∈ scoringKeys, r.lookup k = mt.lookup k) ∧
    (∀ (now : String) (item : JValue) (r : List (String × JValue)) (cve : JValue)
        (md : JValue),
        transform_record now item = .ok r →
        pyIndex item "cve" = .ok cve →
        metricsDataOf cve = .ok md →
        md.pyTruthy = false →
        ∀ k ∈ scoringKeys, r.lookup k = none) := by
  constructor
  · intro now item r cve m rest h hcve hmd
    obtain ⟨mt, hmt, hsc⟩ := lookup_scoring h hcve
    have hft : flattenMetric m = .ok mt := by
      simp only [metricsTransformed, hmd, JValue.pyTruthy, List.isEmpty_cons,
        Bool.not_false, if_true] at hmt
      exact hmt
    exact ⟨mt, hft, hsc⟩
  · intro now item r cve md h hcve hmd hfalsy k hk
    obtain ⟨mt, hmt, hsc⟩ := lookup_scoring h hcve
    have hmt0 : mt = [] := by
      simp only [metricsTransformed, hmd, hfalsy, Bool.false_eq_true, if_false] at hmt
      injection hmt with hmt
      exact hmt.symm
    rw [hsc k hk, hmt0]
    rfl

/-- Witness for C3: a two-entry metrics list (only the empty first entry is
flattened), and a record with no metrics at all. -/
theorem transform_metrics_first_entry_only_witness :
    (transform_record "T"
        (.obj [("cve", .obj [("metrics", .obj [("cvssMetricV2", .arr
          [.obj [], .obj [("type", .str "ignored")]])])])]) =
      .ok ([("id", .null), ("sourceIdentifier", .null), ("published", .null),
            ("lastModified", .null), ("vulnStatus", .null), ("description", .str "")]
           ++ scoringKeys.map (fun k => (k, JValue.null))
           ++ [("weaknesses", .arr []), ("references", .arr []),
               ("collected_at", .str "T")]) ∧
     metricsDataOf (.obj [("metrics", .obj [("cvssMetricV2", .arr
          [.obj [], .obj [("type", .str "ignored")]])])]) =
        .ok (.arr (JValue.obj [] :: [.obj [("type", .str "ignored")]])) ∧
     (∃ mt, flattenMetric (.obj []) = .ok mt ∧
        ∀ k ∈ scoringKeys,
          ([("id", JValue.null), ("sourceIdentifier", JValue.null),
            ("published", JValue.null), ("lastModified", JValue.null),
            ("vulnStatus", JValue.null), ("description", JValue.str "")]
           ++ scoringKeys.map (fun k => (k, JValue.null))
           ++ [("weaknesses", JValue.arr []), ("references", JValue.arr []),
               ("collected_at", JValue.str "T")]).lookup k = mt.lookup k)) ∧
    (transform_record "T" (.obj [("cve", .obj [])]) =
      .ok [("id", .null), ("sourceIdentifier", .null), ("published", .null),
           ("lastModified", .null), ("vulnStatus", .null), ("description", .str ""),
           ("weaknesses", .arr []), ("references", .arr []), ("collected_at", .str "T")] ∧
     metricsDataOf (.obj []) = .ok (.arr []) ∧
     (JValue.arr []).pyTruthy = false ∧
     (∀ k ∈ scoringKeys,
        [("id", JValue.null), ("sourceIdentifier", JValue.null), ("published", JValue.null),
         ("lastModified", JValue.null), ("vulnStatus", JValue.null),
         ("description", JValue.str ""), ("weaknesses", JValue.arr []),
         ("references", JValue.arr []),
         ("collected_at", JValue.str "T")].lookup k = none)) :=
  ⟨⟨rfl, rfl,
    transform_metrics_first_entry_only.1 "T"
      (.obj [("cve", .obj [("metrics", .obj [("cvssMetricV2", .arr
        [.obj [], .obj [("type", .str "ignored")]])])])])
      ([("id", JValue.null), ("sourceIdentifier", JValue.null), ("published", JValue.null),
        ("lastModified", JValue.null), ("vulnStatus", JValue.null),
        ("description", JValue.str "")]
       ++ scoringKeys.map (fun k => (k, JValue.null))
       ++ [("weaknesses", JValue.arr []), ("references", JValue.arr []),
           ("collected_at", JValue.str "T")])
      (.obj [("metrics", .obj [("cvssMetricV2", .arr
        [.obj [], .obj [("type", .str "ignored")]])])])
      (.obj []) [.obj [("type", .str "ignored")]]
      rfl rfl rfl⟩,
   ⟨rfl, rfl, rfl,
    transform_metrics_first_entry_only.2 "T"
      (.obj [("cve", .obj [])])
      [("id", .null), ("sourceIdentifier", .null), ("published", .null),
       ("lastModified", .null), ("vulnStatus", .null), ("description", .str ""),
       ("weaknesses", .arr []), ("references", .arr []), ("collected_at", .str "T")]
      (.obj []) (.arr [])
      rfl rfl rfl rfl⟩⟩

/-- C4: the `references` list of a record that projects contains no duplicate
values, and contains exactly the truthy `url` values of the cve's reference
entries — entries lacking a url (whose `.get` yields `None`) contribute
nothing; the order of the list is not constrained. -/
theorem transform_references_set :
    ∀ (now : String) (item : JValue) (r : List (String × JValue)) (cve : JValue)
      (refs urls : List JValue),
      transform_record now item = .ok r →
      pyIndex item "cve" = .ok cve →
      refsListOf cve = .ok refs →
      r.lookup "references" = some (.arr urls) →
      urls.Nodup ∧
      (∀ u, u ∈ urls ↔ (u.pyTruthy = true ∧ ∃ ref ∈ refs, jGet ref "url" = .ok u)) := by
  intro now item r cve refs urls h hcve hrefs hlook
  obtain ⟨rl, hrl, hlook'⟩ := lookup_references h hcve
  rw [hlook] at hlook'
  injection hlook' with hlook'
  injection hlook' with hlook'
  subst hlook'
  have hcoll : collectRefURLs refs = .ok urls := by
    simp only [refsOf, hrefs] at hrl
    exact hrl
  obtain ⟨_, N, M⟩ := collectRefURLs_ok hcoll
  exact ⟨N, M⟩

/-- Witness for C4: two entries with the same url and one url-less entry give a
single-element url set. -/
theorem transform_references_set_witness :
    transform_record "T"
        (.obj [("cve", .obj [("references", .arr
          [.obj [("url", .str "http://a")], .obj [("url", .str "http://a")],
           .obj []])])]) =
      .ok [("id", .null), ("sourceIdentifier", .null), ("published", .null),
           ("lastModified", .null), ("vulnStatus", .null), ("description", .str ""),
           ("weaknesses", .arr []), ("references", .arr [.str "http://a"]),
           ("collected_at", .str "T")] ∧
    refsListOf (.obj [("references", .arr
          [.obj [("url", .str "http://a")], .obj [("url", .str "http://a")],
           .obj []])]) =
      .ok [.obj [("url", .str "http://a")], .obj [("url", .str "http://a")], .obj []] ∧
    ([("id", JValue.null), ("sourceIdentifier", JValue.null), ("published", JValue.null),
      ("lastModified", JValue.null), ("vulnStatus", JValue.null),
      ("description", JValue.str ""), ("weaknesses", JValue.arr []),
      ("references", JValue.arr [.str "http://a"]),
      ("collected_at", JValue.str "T")].lookup "references"
        = some (.arr [.str "http://a"])) ∧
    (([JValue.str "http://a"] : List JValue).Nodup ∧
     (∀ u, u ∈ ([JValue.str "http://a"] : List JValue) ↔
        (u.pyTruthy = true ∧
         ∃ ref ∈ [JValue.obj [("url", .str "http://a")],
                  JValue.obj [("url", .str "http://a")], JValue.obj []],
           jGet ref "url" = .ok u))) :=
  ⟨rfl, rfl, rfl,
   transform_references_set "T"
     (.obj [("cve", .obj [("references", .arr
       [.obj [("url", .str "http://a")], .obj [("url", .str "http://a")], .obj []])])])
     [("id", .null), ("sourceIdentifier", .null), ("published", .null),
      ("lastModified", .null), ("vulnStatus", .null), ("description", .str ""),
      ("weaknesses", .arr []), ("references", .arr [.str "http://a"]),
      ("collected_at", .str "T")]
     (.obj [("references", .arr
       [.obj [("url", .str "http://a")], .obj [("url", .str "http://a")], .obj []])])
     [.obj [("url", .str "http://a")], .obj [("url", .str "http://a")], .obj []]
     [.str "http://a"]
     rfl rfl rfl rfl⟩

/-- C8: a reference entry whose `url` value is present but falsy (the empty
string, or any other falsy value) is excluded from the url set, exactly as if
the entry had no url at all: deleting the entry leaves the computed set
unchanged. -/
theorem references_falsy_url_excluded :
    ∀ (l1 l2 : List JValue) (ref u : JValue),
      jGet ref "url" = .ok u →
      u.pyTruthy = false →
      collectRefURLs (l1 ++ ref :: l2) = collectRefURLs (l1 ++ l2) := by
  intro l1 l2 ref u hju ht
  induction l1 with
  | nil =>
    simp only [List.nil_append]
    simp only [collectRefURLs, hju, ht, Bool.false_eq_true, if_false]
  | cons x xs ih =>
    simp only [List.cons_append]
    simp only [collectRefURLs]
    rw [ih]

/-- Witness for C8: an empty-string url entry contributes nothing. -/
theorem references_falsy_url_excluded_witness :
    jGet (.obj [("url", .str "")]) "url" = .ok (.str "") ∧
    (JValue.str "").pyTruthy = false ∧
    collectRefURLs ([] ++ (JValue.obj [("url", .str "")]) ::
        [JValue.obj [("url", .str "http://a")]])
      = collectRefURLs ([] ++ [JValue.obj [("url", .str "http://a")]]) :=
  ⟨rfl, rfl,
   references_falsy_url_excluded [] [.obj [("url", .str "http://a")]]
     (.obj [("url", .str "")]) (.str "") rfl rfl⟩

/-- C5 counterexample: a payload that is neither a dict nor a list is rejected
with an error and nothing is inserted, but the raw store's prior contents are
not left unchanged — `delete_many` (line 59) has already run before the shape
check (lines 61-67), leaving the store empty. -/
theorem save_unsupported_shape_counterexample :
    (save_to_mongo true true (.str "oops") [.obj [("k", .str "v")]]).2 = true ∧
    (save_to_mongo true true (.str "oops") [.obj [("k", .str "v")]]).1 = [] ∧
    (save_to_mongo true true (.str "oops") [.obj [("k", .str "v")]]).1
      ≠ [.obj [("k", .str "v")]] :=
  ⟨rfl, rfl, fun hc => nomatch hc⟩

/-- C5 amended: when the fetcher's save operation receives a payload that is
neither a dict nor a list, it reports an error and inserts nothing, but the
clear step has already deleted the raw store's prior contents, so the rejected
call leaves the store empty. -/
theorem save_unsupported_shape_rejected :
    ∀ (data : JValue) (store : List JValue),
      (∀ fs, data ≠ .obj fs) →
      (∀ xs, data ≠ .arr xs) →
      save_to_mongo true true data store = ([], true) := by
  intro data store hobj harr
  cases data with
  | null => rfl
  | bool b => rfl
  | num n => rfl
  | str s => rfl
  | arr xs => exact absurd rfl (harr xs)
  | obj fs => exact absurd rfl (hobj fs)

/-- Witness for the amended C5: a string payload against a non-empty store. -/
theorem save_unsupported_shape_rejected_witness :
    (∀ fs, JValue.str "oops" ≠ .obj fs) ∧
    (∀ xs, JValue.str "oops" ≠ .arr xs) ∧
    save_to_mongo true true (.str "oops") [.obj [("k", .str "v")]] = ([], true) :=
  ⟨fun _ h => JValue.noConfusion h, fun _ h => JValue.noConfusion h,
   save_unsupported_shape_rejected (.str "oops") [.obj [("k", .str "v")]]
     (fun _ h => JValue.noConfusion h) (fun _ h => JValue.noConfusion h)⟩

/-- C9: a fetch that succeeds but returns a falsy payload takes the same path
as a fetch failure: an error is logged and `save_to_mongo` is never called, so
the raw store's previous contents are neither deleted nor replaced. -/
theorem fetch_falsy_payload_skips_save :
    ∀ (envOk connOk : Bool) (d : JValue) (store : List JValue),
      d.pyTruthy = false →
      mainRun envOk connOk (some d) store = (store, true) ∧
      mainRun envOk connOk (some d) store = mainRun envOk connOk none store := by
  intro envOk connOk d store ht
  have h1 : mainRun envOk connOk (some d) store = (store, true) := by
    simp only [mainRun, ht, Bool.false_eq_true, if_false]
  exact ⟨h1, h1.trans rfl⟩

/-- Witness for C9: an empty-dict payload and a one-document store. -/
theorem fetch_falsy_payload_skips_save_witness :
    (JValue.obj []).pyTruthy = false ∧
    (mainRun true true (some (.obj [])) [.null] = ([.null], true) ∧
     mainRun true true (some (.obj [])) [.null] = mainRun true true none [.null]) :=
  ⟨rfl, fetch_falsy_payload_skips_save true true (.obj []) [.null] rfl⟩

end NvdEtl
